import Mathlib

/-!
Verification of MultiPingTUI's per-target state machine, view filtering
and sorting, and wrapper-holder replacement, against a shallow embedding
of the Go source.

Conventions of the embedding:
* Go `int64` values are modelled as `Int` (no claim here hinges on
  64-bit wraparound).
* `time.Now().UnixNano()` inside `ComputeState` is modelled as an
  explicit `now : Int` argument.
* The transition-record JSON written to the `TransitionWriter` is
  modelled as an `Option TransitionRecord` result: `some r` exactly when
  the source's `WriteString` executes (state differ AND a writer is
  attached); the `transition_writer` pointer is modelled by a `Bool`
  recording whether it is non-nil.
-/

/-- The JSON object written per transition (src/unnamed/part_004 lines
85-101).  The human-readable `Timestamp` string is derived from
`UnixNano` in the source and is not modelled separately. -/
structure TransitionRecord where
  UnixNano   : Int
  Host       : String
  Ip         : String
  Transition : String
  State      : Bool
  deriving Repr, DecidableEq

/-- Per-target stats record, src/unnamed/part_004 lines 9-29 (the
revision without the `first_called` field).  `transition_writer : Bool`
records whether the writer pointer is non-nil. -/
structure PWStats where
  lastsent               : Int := 0
  lastrecv               : Int := 0
  lastrtt                : Int := 0
  lastrtt_as_string      : String := ""
  last_loss_nano         : Int := 0
  last_loss_duration     : Int := 0
  last_seen_nano         : Int := 0
  state                  : Bool := false
  has_ever_received      : Bool := false
  state_initialized      : Bool := false
  skip_next_up_highlight : Bool := false
  last_up_transition     : Int := 0
  startup_time           : Int := 0
  last_compute           : Int := 0
  uptime_nano            : Int := 0
  transition_writer      : Bool := false
  error_message          : String := ""
  hrepr                  : String := ""
  iprepr                 : String := ""
  deriving Repr, DecidableEq

namespace PWStats

/-- Embedding of `(*PWStats).ComputeState(timeout_threshold)` from
src/unnamed/part_004 lines 31-111, with `now` passed explicitly.
Returns the updated stats together with the transition record written
to the transition writer (`none` when no record is written). -/
def ComputeState (p : PWStats) (now timeout_threshold : Int) :
    PWStats × Option TransitionRecord :=
  let startup_time := if p.startup_time = 0 then now else p.startup_time
  let last_compute0 := if p.last_compute = 0 then now else p.last_compute
  let prevState := p.state
  let prevSeen := p.state_initialized
  let old_last_seen := p.last_seen_nano
  let new_last_seen := now - p.lastrecv
  let new_state : Bool := new_last_seen < timeout_threshold
  if !prevSeen then
    ({ p with
        startup_time := startup_time
        last_seen_nano := new_last_seen
        state_initialized := true
        skip_next_up_highlight := true
        state := new_state
        last_compute := now }, none)
  else
    let uptime_nano :=
      if prevState then p.uptime_nano + (now - last_compute0) else p.uptime_nano
    let skipAndHighlight :=
      if !prevState && new_state then
        if p.skip_next_up_highlight then
          (false, p.last_up_transition)
        else
          (p.skip_next_up_highlight, now)
      else
        (p.skip_next_up_highlight, p.last_up_transition)
    let lossRecord :=
      if !prevState && new_state then
        (now, old_last_seen)
      else
        (p.last_loss_nano, p.last_loss_duration)
    let record :=
      if p.state ≠ new_state then
        some { UnixNano := now
               Host := p.hrepr
               Ip := p.iprepr
               Transition := if new_state then "down to up" else "up to down"
               State := new_state }
      else
        none
    let emitted := if p.transition_writer then record else none
    ({ p with
        startup_time := startup_time
        last_seen_nano := new_last_seen
        uptime_nano := uptime_nano
        skip_next_up_highlight := skipAndHighlight.1
        last_up_transition := skipAndHighlight.2
        last_loss_nano := lossRecord.1
        last_loss_duration := lossRecord.2
        state := new_state
        last_compute := now }, emitted)

/-- Embedding of `PWStats.OnlineUptime(now)` from src/unnamed/part_004
lines 113-122 (identical in src/unnamed/part_005 lines 115-124). -/
def OnlineUptime (p : PWStats) (now : Int) : Int :=
  let total := p.uptime_nano + (if p.state then now - p.last_compute else 0)
  if total < 0 then 0 else total

end PWStats

/-- Per-target stats record of the src/unnamed/part_005 revision, which
adds the `first_called` field (lines 9-30 there). -/
structure PWStats5 where
  lastsent               : Int := 0
  lastrecv               : Int := 0
  lastrtt                : Int := 0
  lastrtt_as_string      : String := ""
  last_loss_nano         : Int := 0
  last_loss_duration     : Int := 0
  last_seen_nano         : Int := 0
  state                  : Bool := false
  first_called           : Bool := false
  has_ever_received      : Bool := false
  state_initialized      : Bool := false
  skip_next_up_highlight : Bool := false
  last_up_transition     : Int := 0
  startup_time           : Int := 0
  last_compute           : Int := 0
  uptime_nano            : Int := 0
  transition_writer      : Bool := false
  error_message          : String := ""
  hrepr                  : String := ""
  iprepr                 : String := ""
  deriving Repr, DecidableEq

namespace PWStats5

/-- Embedding of `(*PWStats).ComputeState(timeout_threshold)` of the
src/unnamed/part_005 revision (lines 32-113).  It differs from the
part_004 revision only in the down-to-up section: the loss event is
recorded only when `first_called` is already true; on the first
down-to-up after initialization `first_called` is set instead and the
loss record is skipped.  The source's second `time.Now().UnixNano()`
call at line 71 is modelled by the same `now` (the two reads happen
microseconds apart within one invocation). -/
def ComputeState (p : PWStats5) (now timeout_threshold : Int) :
    PWStats5 × Option TransitionRecord :=
  let startup_time := if p.startup_time = 0 then now else p.startup_time
  let last_compute0 := if p.last_compute = 0 then now else p.last_compute
  let prevState := p.state
  let prevSeen := p.state_initialized
  let old_last_seen := p.last_seen_nano
  let new_last_seen := now - p.lastrecv
  let new_state : Bool := new_last_seen < timeout_threshold
  if !prevSeen then
    ({ p with
        startup_time := startup_time
        last_seen_nano := new_last_seen
        state_initialized := true
        skip_next_up_highlight := true
        state := new_state
        last_compute := now }, none)
  else
    let uptime_nano :=
      if prevState then p.uptime_nano + (now - last_compute0) else p.uptime_nano
    let skipAndHighlight :=
      if !prevState && new_state then
        if p.skip_next_up_highlight then
          (false, p.last_up_transition)
        else
          (p.skip_next_up_highlight, now)
      else
        (p.skip_next_up_highlight, p.last_up_transition)
    let lossRecord :=
      if !prevState && new_state then
        if p.first_called then
          (now, old_last_seen, p.first_called)
        else
          (p.last_loss_nano, p.last_loss_duration, true)
      else
        (p.last_loss_nano, p.last_loss_duration, p.first_called)
    let record :=
      if p.state ≠ new_state then
        some { UnixNano := now
               Host := p.hrepr
               Ip := p.iprepr
               Transition := if new_state then "down to up" else "up to down"
               State := new_state }
      else
        none
    let emitted := if p.transition_writer then record else none
    ({ p with
        startup_time := startup_time
        last_seen_nano := new_last_seen
        uptime_nano := uptime_nano
        skip_next_up_highlight := skipAndHighlight.1
        last_up_transition := skipAndHighlight.2
        last_loss_nano := lossRecord.1
        last_loss_duration := lossRecord.2.1
        first_called := lossRecord.2.2
        state := new_state
        last_compute := now }, emitted)

/-- Embedding of `PWStats.OnlineUptime(now)` of the part_005 revision
(src/unnamed/part_005 lines 115-124); textually identical to the
part_004 one. -/
def OnlineUptime (p : PWStats5) (now : Int) : Int :=
  let total := p.uptime_nano + (if p.state then now - p.last_compute else 0)
  if total < 0 then 0 else total

end PWStats5

/-! ## Repeated `ComputeState` calls

Helpers for properties over a whole sequence of `ComputeState`
invocations (one per snapshot tick in the source).  Each element of the
list is a `(now, timeout_threshold)` pair for one call. -/

/-- Fold a list of `(now, timeout_threshold)` calls through
`PWStats.ComputeState`, discarding the emitted records. -/
def runComputes (p : PWStats) : List (Int × Int) → PWStats
  | [] => p
  | c :: rest => runComputes (p.ComputeState c.1 c.2).1 rest

/-- Predicate: the successive `now` values of a call sequence are non-decreasing
and start no earlier than `t` (`time.Now()` read once per call). -/
def Chronological (t : Int) : List (Int × Int) → Prop
  | [] => True
  | c :: rest => t ≤ c.1 ∧ Chronological c.1 rest

/-! ## View layer: filter modes and sorting (src/ping_service.go) -/

/-- Filter mode constants, src/ping_service.go lines 141-148. -/
inductive FilterMode where
  | FilterAll
  | FilterSmart
  | FilterOnline
  | FilterOffline
  deriving DecidableEq, Repr

export FilterMode (FilterAll FilterSmart FilterOnline FilterOffline)

/-- Result of Go's `net.ParseIP` (standard library, treated as an
external parser): a dotted-quad literal yields a v4 address, other
valid literals a 16-byte v6 address.  `ip.To4()` is non-nil exactly on
the `v4` constructor for the literals appearing here. -/
inductive IPAddr where
  | v4 (a b c d : Nat)
  | v6 (bytes : List Nat)
  deriving DecidableEq, Repr

/-- Embedding of `ipKey` from src/ping_service.go lines 969-978, acting on the
parse result of the `iprepr` string (`none` models `net.ParseIP`
returning nil): an IPv4 address becomes 12 zero bytes followed by its
4 bytes; an IPv6 address is its 16 bytes. -/
def ipKey : Option IPAddr → Option (List Nat)
  | none => none
  | some (.v4 a b c d) => some (List.replicate 12 0 ++ [a, b, c, d])
  | some (.v6 bs) => some bs

/-- Whether `bytes.Compare(a, b) < 0`: lexicographic byte-slice comparison. -/
def bytesLt : List Nat → List Nat → Bool
  | [], [] => false
  | [], _ :: _ => true
  | _ :: _, [] => false
  | a :: as, b :: bs =>
      if a < b then true else if b < a then false else bytesLt as bs

/-- One entry of the TUI's wrapper list as the view sees it: the
original host string (`wrapper.Host()`), the stats value returned by
`wrapper.CalcStats(2e9)`, and the `net.ParseIP` result of
`stats.iprepr`. -/
structure Wrapper where
  host : String
  stats : PWStats
  ipParsed : Option IPAddr
  deriving DecidableEq, Repr

/-- The `isOnline` local of `getFilteredWrappers`, src/ping_service.go
line 754: `stats.state && stats.error_message == ""`. -/
def isOnline (st : PWStats) : Bool :=
  st.state && st.error_message == ""

/-- Filter switch of `getFilteredWrappers`
(src/ping_service.go lines 757-772); `StatusServer.filterAndSort`
(src/unnamed/part_005 lines 824-839) has the same branches. -/
def includeByFilter (mode : FilterMode) (st : PWStats) : Bool :=
  match mode with
  | FilterAll => true
  | FilterSmart => isOnline st || st.has_ever_received
  | FilterOnline => isOnline st
  | FilterOffline => !isOnline st

/-- Filtering loop of `getFilteredWrappers`
(src/ping_service.go lines 747-773): drop hidden hosts, then apply the
filter-mode switch. -/
def getFilteredWrappers (mode : FilterMode) (hidden : List String)
    (ws : List Wrapper) : List Wrapper :=
  ws.filter (fun w => !hidden.contains w.host && includeByFilter mode w.stats)

/-- Comparator closure of the `SortByIP` branch of `getFilteredWrappers`
(src/ping_service.go lines 875-890). -/
def ipSortLess (wI wJ : Wrapper) : Bool :=
  match ipKey wI.ipParsed, ipKey wJ.ipParsed with
  | some kI, some kJ =>
      if kI ≠ kJ then bytesLt kI kJ else decide (wI.host < wJ.host)
  | some _, none => true
  | none, some _ => false
  | none, none => decide (wI.host < wJ.host)

/-- Insert into a list sorted by `less` (before the first element the
new one is `less` than). -/
def insertBy (less : α → α → Bool) (x : α) : List α → List α
  | [] => [x]
  | y :: ys => if less x y then x :: y :: ys else y :: insertBy less x ys

/-- Model of `sort.Slice(filtered, less)`: Go's sort is unstable, but for a
comparator that is a strict total order on the keys present (all keys
distinct here) its output is the unique `less`-sorted permutation,
which insertion sort computes. -/
def sortSliceBy (less : α → α → Bool) : List α → List α
  | [] => []
  | x :: xs => insertBy less x (sortSliceBy less xs)

/-- Sorting of the `SortByIP` branch of `getFilteredWrappers`
(src/ping_service.go lines 874-891). -/
def sortWrappersByIP (ws : List Wrapper) : List Wrapper :=
  sortSliceBy ipSortLess ws

/-! ## WrapperHolder.ReplaceHosts atomicity (src/wrapperholder.go)

`ReplaceHosts` (lines 103-130) takes the write lock, installs a fresh
slice, fills it entry by entry, and releases the lock; `Wrappers()`
(lines 132-138) copies the slice under the read lock.  The `RWMutex`
excludes readers for the whole write-locked section, so the slice
values `Wrappers()` can observe are exactly those at states where the
write lock is free.  We model the holder as the pair (write lock held,
slice contents), each Go statement of the critical section as one
atomic action, and quantify over every intermediate state. -/

/-- Fields of `WrapperHolder` relevant to replacement: whether the
write lock is held and the `ping_wrappers` slice (`none` models a nil
entry of a freshly `make`d slice; a wrapper is identified by its host
string, as `NewPingWrapper(host, ...)` is keyed on it). -/
structure HolderState where
  locked : Bool
  arr : List (Option String)
  deriving DecidableEq, Repr

/-- Loop body `w.ping_wrappers[i] = NewPingWrapper(host, ...)`
(src/wrapperholder.go lines 110-112) as one atomic action per index,
starting at index `k`. -/
def fillActions (k : Nat) : List String → List (HolderState → HolderState)
  | [] => []
  | h :: rest =>
      (fun s => { s with arr := s.arr.set k (some h) }) :: fillActions (k + 1) rest

/-- Atomic actions of the `ReplaceHosts(hosts)` mutation of
`ping_wrappers` (src/wrapperholder.go lines 107-114): `mu.Lock()`;
`ping_wrappers = make([]PingWrapperInterface, len(hosts))`; the fill
loop; `mu.Unlock()`.  (Stopping old wrappers and starting new ones,
lines 116-126, do not touch the slice.) -/
def replaceSteps (hosts : List String) : List (HolderState → HolderState) :=
  (fun s => { s with locked := true }) ::
  (fun s => { s with arr := List.replicate hosts.length none }) ::
  (fillActions 0 hosts ++ [fun s => { s with locked := false }])

/-- Run a list of atomic actions from a state. -/
def applySteps (s : HolderState) : List (HolderState → HolderState) → HolderState
  | [] => s
  | f :: fs => applySteps (f s) fs

/-- Every state reachable at some point of an action sequence: the
observation points a concurrent `Wrappers()` call can be serialized
against. -/
def statesFrom (s : HolderState) : List (HolderState → HolderState) → List HolderState
  | [] => [s]
  | f :: fs => s :: statesFrom (f s) fs

/-! ## Theorems for the specification claims -/

/-- Claim C1: after initialization, one `ComputeState` call writes a transition
record iff the stored state differs from the newly computed state; the
record's `State` equals the new state and `Transition` is "down to up"
for an up edge, "up to down" for a down edge; at most one record per
call, so exactly one per real state change. -/
theorem computeState_transition_record (p : PWStats) (now th : Int)
    (hinit : p.state_initialized = true) (hw : p.transition_writer = true) :
    ((p.ComputeState now th).2.isSome ↔ p.state ≠ (p.ComputeState now th).1.state) ∧
    (∀ rec : TransitionRecord, (p.ComputeState now th).2 = some rec →
      rec.State = (p.ComputeState now th).1.state ∧
      rec.Transition =
        (if (p.ComputeState now th).1.state then "down to up" else "up to down")) := by
  simp only [PWStats.ComputeState, hinit, hw]
  by_cases hns : now - p.lastrecv < th <;> by_cases hst : p.state = true <;>
    simp_all

/-- Stats of an initialized, currently-down target with an attached
transition writer whose reply just arrived. -/
def pUpEx : PWStats :=
  { state_initialized := true, transition_writer := true, lastrecv := 100 }

theorem computeState_transition_record_witness :
    (pUpEx.ComputeState 100 10).2.isSome ↔
      pUpEx.state ≠ (pUpEx.ComputeState 100 10).1.state :=
  (computeState_transition_record pUpEx 100 10 rfl rfl).1
/-- Concrete part_005 stats: initialized, currently down, first_called
still false, a reply just arrived (lastrecv = 100). -/
def p5Cex : PWStats5 :=
  { state_initialized := true, state := false, first_called := false,
    skip_next_up_highlight := true, lastrecv := 100, last_compute := 50,
    transition_writer := true }

/-- Claim C2 counterexample: in the part_005 revision the first down-to-up
change after initialization does NOT record the loss event —
`last_loss_nano` stays 0 instead of becoming `now = 100`; the loss
record is suppressed along with the highlight, refuting "the loss
record is never suppressed". -/
theorem computeState5_first_loss_suppressed_cex :
    p5Cex.state = false ∧ p5Cex.state_initialized = true ∧
    (p5Cex.ComputeState 100 10).1.state = true ∧
    (p5Cex.ComputeState 100 10).1.last_loss_nano ≠ 100 := by
  decide

/-- Claim C2 amended: on a down-to-up change after initialization the
highlight is suppressed exactly when the suppress flag was set (the
flag is then cleared, `last_up_transition` untouched; otherwise
`last_up_transition := now`).  The loss event is always recorded in the
part_004 revision, but in the part_005 revision it is recorded only
when `first_called` was already true; on the first down-to-up
`first_called` is set and the loss record is skipped. -/
theorem computeState_downUp_behaviour (p : PWStats) (q : PWStats5) (now th : Int) :
    (p.state_initialized = true → p.state = false → now - p.lastrecv < th →
      ((p.skip_next_up_highlight = true →
          (p.ComputeState now th).1.skip_next_up_highlight = false ∧
          (p.ComputeState now th).1.last_up_transition = p.last_up_transition) ∧
       (p.skip_next_up_highlight = false →
          (p.ComputeState now th).1.last_up_transition = now) ∧
       (p.ComputeState now th).1.last_loss_nano = now ∧
       (p.ComputeState now th).1.last_loss_duration = p.last_seen_nano)) ∧
    (q.state_initialized = true → q.state = false → now - q.lastrecv < th →
      ((q.skip_next_up_highlight = true →
          (q.ComputeState now th).1.skip_next_up_highlight = false ∧
          (q.ComputeState now th).1.last_up_transition = q.last_up_transition) ∧
       (q.skip_next_up_highlight = false →
          (q.ComputeState now th).1.last_up_transition = now) ∧
       (q.first_called = true →
          (q.ComputeState now th).1.last_loss_nano = now ∧
          (q.ComputeState now th).1.last_loss_duration = q.last_seen_nano) ∧
       (q.first_called = false →
          (q.ComputeState now th).1.last_loss_nano = q.last_loss_nano ∧
          (q.ComputeState now th).1.last_loss_duration = q.last_loss_duration ∧
          (q.ComputeState now th).1.first_called = true))) := by
  constructor
  · intro hinit hdown hns
    simp only [PWStats.ComputeState, hinit, hdown, hns]
    by_cases hskip : p.skip_next_up_highlight = true <;> simp_all
  · intro hinit hdown hns
    simp only [PWStats5.ComputeState, hinit, hdown, hns]
    by_cases hskip : q.skip_next_up_highlight = true <;>
      by_cases hfc : q.first_called = true <;> simp_all

theorem computeState_downUp_behaviour_witness :
    ((p5Cex.ComputeState 100 10).1.last_loss_nano = p5Cex.last_loss_nano ∧
     (p5Cex.ComputeState 100 10).1.last_loss_duration = p5Cex.last_loss_duration ∧
     (p5Cex.ComputeState 100 10).1.first_called = true) :=
  ((computeState_downUp_behaviour { } p5Cex 100 10).2 rfl rfl (by decide)).2.2.2 rfl
/-- Both paths of `ComputeState` end with `last_compute = now`. -/
theorem computeState_last_compute (p : PWStats) (now th : Int) :
    (p.ComputeState now th).1.last_compute = now := by
  simp only [PWStats.ComputeState]
  split <;> rfl

/-- One `ComputeState` call never decreases `uptime_nano`, provided the
call time is not before the previous compute time. -/
theorem computeState_uptime_step (p : PWStats) (now th : Int)
    (h : p.last_compute ≤ now) :
    p.uptime_nano ≤ (p.ComputeState now th).1.uptime_nano := by
  simp only [PWStats.ComputeState]
  split
  · exact le_refl _
  · dsimp only
    split_ifs <;> omega

/-- `ComputeState` leaves `uptime_nano` untouched when the previous
state was down. -/
theorem computeState_uptime_down (p : PWStats) (now th : Int)
    (h : p.state = false) :
    (p.ComputeState now th).1.uptime_nano = p.uptime_nano := by
  simp only [PWStats.ComputeState, h]
  split <;> rfl

/-- `ComputeState` never resets `state_initialized`. -/
theorem computeState_state_initialized_step (p : PWStats) (now th : Int)
    (h : p.state_initialized = true) :
    (p.ComputeState now th).1.state_initialized = true := by
  simp [PWStats.ComputeState, h]

/-- `uptime_nano` is monotone along any chronological call sequence. -/
theorem runComputes_uptime_mono (steps : List (Int × Int)) :
    ∀ p : PWStats, Chronological p.last_compute steps →
      p.uptime_nano ≤ (runComputes p steps).uptime_nano := by
  induction steps with
  | nil => intro p _; exact le_refl _
  | cons c rest ih =>
      intro p hc
      obtain ⟨h1, h2⟩ := hc
      refine le_trans (computeState_uptime_step p c.1 c.2 h1) (ih _ ?_)
      rw [computeState_last_compute]
      exact h2

/-- `state_initialized` stays true along any call sequence. -/
theorem runComputes_state_initialized_mono (steps : List (Int × Int)) :
    ∀ p : PWStats, p.state_initialized = true →
      (runComputes p steps).state_initialized = true := by
  induction steps with
  | nil => intro p h; exact h
  | cons c rest ih =>
      intro p h
      exact ih _ (computeState_state_initialized_step p c.1 c.2 h)

/-- Claim C3: along every chronological sequence of `ComputeState` calls
`uptime_nano` is monotone non-decreasing; a single call credits no time
when the previous state was down; and `state_initialized`, once true,
stays true. -/
theorem computeState_uptime_invariants (p : PWStats) (steps : List (Int × Int))
    (now th : Int) (hc : Chronological p.last_compute steps) :
    p.uptime_nano ≤ (runComputes p steps).uptime_nano ∧
    (p.state = false → (p.ComputeState now th).1.uptime_nano = p.uptime_nano) ∧
    (p.state_initialized = true → (runComputes p steps).state_initialized = true) :=
  ⟨runComputes_uptime_mono steps p hc,
   fun h => computeState_uptime_down p now th h,
   fun h => runComputes_state_initialized_mono steps p h⟩

theorem computeState_uptime_invariants_witness :
    ({ state := true, state_initialized := true, last_compute := 1 } : PWStats).uptime_nano ≤
      (runComputes { state := true, state_initialized := true, last_compute := 1 }
        [(3, 2), (5, 2)]).uptime_nano :=
  (computeState_uptime_invariants
      { state := true, state_initialized := true, last_compute := 1 }
      [(3, 2), (5, 2)] 3 2
      (by exact ⟨by norm_num, by norm_num, trivial⟩)).1
/-- Claim C4: with `state_initialized` false, the first `ComputeState` call sets
`state_initialized`, the suppress flag, `state` and `last_compute`, and
returns without a record and without touching `uptime_nano`,
`last_loss_nano` or `last_up_transition`. -/
theorem computeState_first_observation (p : PWStats) (now th : Int)
    (h : p.state_initialized = false) :
    ((p.ComputeState now th).1.state_initialized = true) ∧
    ((p.ComputeState now th).1.skip_next_up_highlight = true) ∧
    ((p.ComputeState now th).1.state = decide (now - p.lastrecv < th)) ∧
    ((p.ComputeState now th).1.last_compute = now) ∧
    ((p.ComputeState now th).2 = none) ∧
    ((p.ComputeState now th).1.uptime_nano = p.uptime_nano) ∧
    ((p.ComputeState now th).1.last_loss_nano = p.last_loss_nano) ∧
    ((p.ComputeState now th).1.last_up_transition = p.last_up_transition) := by
  simp [PWStats.ComputeState, h]

theorem computeState_first_observation_witness :
    (({ } : PWStats).state_initialized = false) ∧
    ((({ } : PWStats).ComputeState 7 2).1.state_initialized = true) := by
  exact ⟨rfl, (computeState_first_observation { } 7 2 rfl).1⟩
/-- Claim C8: with `timeout_threshold = 0` the computed state is false whenever
the last reply did not arrive exactly at the compute instant
(replies cannot arrive after `now`, so `lastrecv ≤ now`). -/
theorem computeState_zero_threshold (p : PWStats) (now : Int)
    (hle : p.lastrecv ≤ now) (_hne : p.lastrecv ≠ now) :
    (p.ComputeState now 0).1.state = false := by
  have hpos : ¬ (now - p.lastrecv < 0) := by omega
  simp [PWStats.ComputeState, hpos]
  split <;> rfl

theorem computeState_zero_threshold_witness :
    (({ lastrecv := 3 } : PWStats).ComputeState 5 0).1.state = false :=
  computeState_zero_threshold { lastrecv := 3 } 5 (by decide) (by decide)

/-- Claim C5 counterexample: `OnlineUptime` does not equal
`uptime_nano + (now − last_compute)` for an online stats value whose
accumulated total is negative — the clamp returns 0 instead. -/
theorem onlineUptime_formula_cex :
    (({ state := true, last_compute := 1 } : PWStats).state = true) ∧
    ({ state := true, last_compute := 1 } : PWStats).OnlineUptime 0 ≠
      ({ state := true, last_compute := 1 } : PWStats).uptime_nano
        + (0 - ({ state := true, last_compute := 1 } : PWStats).last_compute) := by
  decide

/-- Claim C5 amended: `OnlineUptime(now)` equals
`uptime_nano + (state ? now − last_compute : 0)` clamped below at zero. -/
theorem onlineUptime_eq_clamped (p : PWStats) (now : Int) :
    p.OnlineUptime now
      = max 0 (p.uptime_nano + (if p.state then now - p.last_compute else 0)) := by
  simp only [PWStats.OnlineUptime]
  split <;> omega

/-- Claim C10: `OnlineUptime` never returns a negative duration, in both source
revisions; a negative accumulated total is clamped to zero. -/
theorem onlineUptime_nonneg (p : PWStats) (q : PWStats5) (now : Int) :
    0 ≤ p.OnlineUptime now ∧ 0 ≤ q.OnlineUptime now ∧
    (p.uptime_nano + (if p.state then now - p.last_compute else 0) < 0 →
      p.OnlineUptime now = 0) := by
  refine ⟨?_, ?_, ?_⟩ <;>
    · simp only [PWStats.OnlineUptime, PWStats5.OnlineUptime]
      split <;> omega

theorem onlineUptime_nonneg_witness :
    ({ state := true, last_compute := 9 } : PWStats).OnlineUptime 0 = 0 :=
  (onlineUptime_nonneg { state := true, last_compute := 9 } { } 0).2.2 (by decide)
/-- Target resolving to 10.0.0.2 (spec scenario 4). -/
def wV4a : Wrapper :=
  { host := "10.0.0.2", stats := { iprepr := "10.0.0.2" },
    ipParsed := some (.v4 10 0 0 2) }

/-- Target resolving to 10.0.0.10. -/
def wV4b : Wrapper :=
  { host := "10.0.0.10", stats := { iprepr := "10.0.0.10" },
    ipParsed := some (.v4 10 0 0 10) }

/-- Target resolving to ::1. -/
def wLoop : Wrapper :=
  { host := "::1", stats := { iprepr := "::1" },
    ipParsed := some (.v6 [0, 0, 0, 0, 0, 0, 0, 0, 0, 0, 0, 0, 0, 0, 0, 1]) }

/-- Target resolving to 2001:db8::1. -/
def wDb8 : Wrapper :=
  { host := "2001:db8::1", stats := { iprepr := "2001:db8::1" },
    ipParsed := some (.v6 [32, 1, 13, 184, 0, 0, 0, 0, 0, 0, 0, 0, 0, 0, 0, 1]) }

/-- Claim C6 counterexample: sorting the four scenario targets under
`SortByIP` does NOT yield the claimed order
10.0.0.2, 10.0.0.10, ::1, 2001:db8::1 — because the v4 key places the
address bytes in the trailing 4 bytes, `::1` (byte 12 = 0) compares
below every such v4 key (byte 12 = 10). -/
theorem sortByIP_example_order_cex :
    sortWrappersByIP [wV4a, wV4b, wLoop, wDb8] ≠ [wV4a, wV4b, wLoop, wDb8] := by
  decide

/-- Claim C6 amended: under `SortByIP` the four scenario targets come out in
the order ::1, 10.0.0.2, 10.0.0.10, 2001:db8::1 (v4 and v6 merged into
one 16-byte key order), and the comparator puts unresolved entries
after every resolved one. -/
theorem sortByIP_merged_order :
    sortWrappersByIP [wV4a, wV4b, wLoop, wDb8] = [wLoop, wV4a, wV4b, wDb8] ∧
    (∀ a b : Wrapper, ipKey a.ipParsed = none → ipKey b.ipParsed ≠ none →
      ipSortLess a b = false ∧ ipSortLess b a = true) := by
  constructor
  · decide
  · intro a b ha hb
    obtain ⟨k, hk⟩ := Option.ne_none_iff_exists'.mp hb
    simp [ipSortLess, ha, hk]

/-- An entry whose `iprepr` does not parse as an IP. -/
def wNoIp : Wrapper := { host := "unresolved.example", stats := { }, ipParsed := none }

theorem sortByIP_merged_order_witness :
    ipSortLess wNoIp wLoop = false ∧ ipSortLess wLoop wNoIp = true :=
  sortByIP_merged_order.2 wNoIp wLoop rfl (by decide)

/-- A target whose state is true but whose strategy reported a hard
failure, and which never received a reply. -/
def wErrCex : Wrapper :=
  { host := "h1",
    stats := { state := true, error_message := "network unreachable",
               has_ever_received := false },
    ipParsed := none }

/-- Claim C7 counterexample: a non-hidden target with `state = true` is
dropped by the Smart filter when `error_message` is non-empty — the
filter tests `state && error_message == ""`, not bare `state`. -/
theorem smartFilter_state_only_cex :
    wErrCex.stats.state = true ∧
    ([] : List String).contains wErrCex.host = false ∧
    getFilteredWrappers FilterSmart [] [wErrCex] = [] := by
  decide

/-- Claim C7 amended: for a target not in the hidden set, the Smart filter
keeps it iff (`state` is true AND `error_message` is empty) OR
`has_ever_received` is true. -/
theorem smartFilter_membership (w : Wrapper) (ws : List Wrapper)
    (hidden : List String) (h : hidden.contains w.host = false) :
    w ∈ getFilteredWrappers FilterSmart hidden ws ↔
      w ∈ ws ∧
        ((w.stats.state && w.stats.error_message == "") ||
          w.stats.has_ever_received) = true := by
  have h' : w.host ∉ hidden := by simpa using h
  simp [getFilteredWrappers, List.mem_filter, includeByFilter, isOnline, h']

/-- A target that has received a reply at least once. -/
def wSeen : Wrapper :=
  { host := "h2", stats := { has_ever_received := true }, ipParsed := none }

theorem smartFilter_membership_witness :
    wSeen ∈ getFilteredWrappers FilterSmart [] [wSeen] ↔
      wSeen ∈ [wSeen] ∧
        ((wSeen.stats.state && wSeen.stats.error_message == "") ||
          wSeen.stats.has_ever_received) = true :=
  smartFilter_membership wSeen [wSeen] [] rfl
/-- Setting the element right after a prefix replaces the head of the
suffix. -/
theorem set_at_append_length (pad : List α) (x y : α) (L : List α) :
    (pad ++ y :: L).set pad.length x = pad ++ x :: L := by
  induction pad with
  | nil => rfl
  | cons p ps ih => simp [List.set, ih]

/-- Running the fill loop over a slice that is a filled prefix followed
by nil entries fills in the remaining hosts in order. -/
theorem applySteps_fill_result (hosts : List String) :
    ∀ (pad : List (Option String)) (s : HolderState),
      s.arr = pad ++ List.replicate hosts.length none →
      (applySteps s (fillActions pad.length hosts)).arr = pad ++ hosts.map some := by
  induction hosts with
  | nil => intro pad s hs; simpa [fillActions, applySteps] using hs
  | cons h rest ih =>
      intro pad s hs
      simp only [fillActions, applySteps]
      have harr :
          ({ s with arr := s.arr.set pad.length (some h) } : HolderState).arr
            = (pad ++ [some h]) ++ List.replicate rest.length none := by
        simp [hs, List.replicate_succ, set_at_append_length]
      have := ih (pad ++ [some h]) _ harr
      simp only [List.length_append, List.length_singleton] at this
      simpa [List.append_assoc] using this

/-- While the writer holds the lock through the fill loop, the only
unlocked state reachable up to and including the unlock step carries
the fully-filled slice. -/
theorem statesFrom_fill_unlock (hosts : List String) :
    ∀ (k : Nat) (s : HolderState), s.locked = true →
      ∀ t ∈ statesFrom s
          (fillActions k hosts ++ [fun u => { u with locked := false }]),
        t.locked = false → t.arr = (applySteps s (fillActions k hosts)).arr := by
  induction hosts with
  | nil =>
      intro k s hl t ht hobs
      simp only [fillActions, List.nil_append, statesFrom, List.mem_cons] at ht
      rcases ht with ht | ht | ht
      · subst ht; rw [hl] at hobs; cases hobs
      · subst ht; rfl
      · cases ht
  | cons h rest ih =>
      intro k s hl t ht hobs
      simp only [fillActions, List.cons_append, statesFrom, List.mem_cons] at ht
      rcases ht with ht | ht
      · subst ht; rw [hl] at hobs; cases hobs
      · simp only [fillActions, applySteps]
        exact ih (k + 1) { s with arr := s.arr.set k (some h) } hl t ht hobs

/-- Claim C9: every slice value observable through `Wrappers()` around a
`ReplaceHosts(new)` call — i.e. the `ping_wrappers` contents at any
point of the critical section where the write lock is free — is either
exactly the old wrapper list or exactly the new one, never a mixture. -/
theorem replaceHosts_atomic (old new : List String) (t : HolderState)
    (hmem : t ∈ statesFrom { locked := false, arr := old.map some }
        (replaceSteps new))
    (hobs : t.locked = false) :
    t.arr = old.map some ∨ t.arr = new.map some := by
  simp only [replaceSteps, statesFrom, List.mem_cons] at hmem
  rcases hmem with h0 | h1 | hfill
  · subst h0; exact Or.inl rfl
  · subst h1; simp at hobs
  · right
    have hres := statesFrom_fill_unlock new 0
        { locked := true, arr := List.replicate new.length none } rfl t hfill hobs
    rw [hres]
    exact applySteps_fill_result new []
      { locked := true, arr := List.replicate new.length none } rfl

theorem replaceHosts_atomic_witness :
    ({ locked := false, arr := ["B", "C"].map some } : HolderState).arr
        = ["A", "B"].map some ∨
      ({ locked := false, arr := ["B", "C"].map some } : HolderState).arr
        = ["B", "C"].map some :=
  replaceHosts_atomic ["A", "B"] ["B", "C"]
    { locked := false, arr := ["B", "C"].map some } (by decide) rfl
